import Mathlib

/-!
Shallow embedding of the upload-job pipeline of the TSUKIBOT GitHub ZIP
uploader: the in-memory job registry (`MemStorage` in the storage module),
the GitHub access validator and per-file remote writer, and the background
orchestrator `processZipUpload` (all in `routes.ts`).

External effects (archive decoding, GitHub API calls, clock) are supplied
as explicit oracle arguments; everything else is translated directly from
the source.  Timestamps are modelled as strings produced from a step
counter, matching only the fact that every mutation stamps `updatedAt`.
-/

/-- A log entry as in the shared schema: timestamp, level
(`info` / `warn` / `error`), free-text message. -/
structure LogEntry where
  timestamp : String
  level : String
  message : String
deriving Repr, DecidableEq

/-- An upload job record, following `uploadJobSchema` in the shared schema. -/
structure UploadJob where
  id : String
  githubToken : String
  repositoryUrl : String
  targetBranch : String
  commitMessage : Option String
  preserveStructure : Bool
  overwriteFiles : Bool
  status : String
  progress : Nat
  currentFile : Option String
  filesProcessed : Nat
  totalFiles : Nat
  logs : List LogEntry
  error : Option String
  createdAt : String
  updatedAt : String
deriving Repr, DecidableEq

/-- The fields of `InsertUploadJob` (the job-creation payload): everything
the client submits, before the registry fills in id, status, counters,
logs and timestamps. -/
structure InsertUploadJob where
  githubToken : String
  repositoryUrl : String
  targetBranch : String
  commitMessage : Option String
  preserveStructure : Bool
  overwriteFiles : Bool
deriving Repr, DecidableEq

/-- A `Partial<UploadJob>` update fragment, restricted to the fields the
program's update call sites actually mention (`status`, `progress`,
`currentFile`, `filesProcessed`, `totalFiles`, `logs`, `error`); a `none`
field is absent from the fragment and therefore left untouched by the
spread `{...job, ...updates}`. -/
structure JobUpdate where
  status : Option String
  progress : Option Nat
  currentFile : Option (Option String)
  filesProcessed : Option Nat
  totalFiles : Option Nat
  logs : Option (List LogEntry)
  error : Option (Option String)
deriving Repr, DecidableEq

/-- The empty update fragment. -/
def JobUpdate.idU : JobUpdate := ⟨none, none, none, none, none, none, none⟩

/-- The merge performed by `MemStorage.updateUploadJob`:
`{ ...job, ...updates, updatedAt: new Date().toISOString() }`.
Every field present in the fragment overwrites the stored field wholesale
(in particular `logs` is replaced, not concatenated), every absent field is
kept, and `updatedAt` is always restamped. -/
def mergeJob (job : UploadJob) (u : JobUpdate) (now : String) : UploadJob :=
  { job with
    status := u.status.getD job.status
    progress := u.progress.getD job.progress
    currentFile := u.currentFile.getD job.currentFile
    filesProcessed := u.filesProcessed.getD job.filesProcessed
    totalFiles := u.totalFiles.getD job.totalFiles
    logs := u.logs.getD job.logs
    error := u.error.getD job.error
    updatedAt := now }

/-- `MemStorage.createUploadJob`: builds the full record from the insert
payload with a fresh id, status `pending`, zero progress and counters, a
single creation log entry, and both timestamps set to the creation
instant. -/
def createUploadJob (id : String) (insertJob : InsertUploadJob) (now : String) : UploadJob :=
  { id := id
    githubToken := insertJob.githubToken
    repositoryUrl := insertJob.repositoryUrl
    targetBranch := insertJob.targetBranch
    commitMessage := insertJob.commitMessage
    preserveStructure := insertJob.preserveStructure
    overwriteFiles := insertJob.overwriteFiles
    status := "pending"
    progress := 0
    currentFile := none
    filesProcessed := 0
    totalFiles := 0
    logs := [⟨now, "info", "Job créé avec succès"⟩]
    error := none
    createdAt := now
    updatedAt := now }

/-- The registry's backing map `Map<string, UploadJob>`, as a function from
identifiers to optional records. -/
def Store : Type := String → Option UploadJob

/-- `MemStorage.getUploadJob`. -/
def getUploadJob (s : Store) (id : String) : Option UploadJob := s id

/-- `MemStorage.updateUploadJob`: look the job up; if absent return
`undefined` and leave the map untouched; otherwise merge the fragment,
restamp `updatedAt`, store the result under the same key and return it. -/
def updateUploadJob (s : Store) (id : String) (u : JobUpdate) (now : String) :
    Option UploadJob × Store :=
  match s id with
  | none => (none, s)
  | some job =>
    let updatedJob := mergeJob job u now
    (some updatedJob, fun k => if k = id then some updatedJob else s k)

/-- `Math.round((i / total) * 100)` for `0 ≤ i ≤ total`: rounding half away
from zero on a nonnegative rational is `⌊(200 i + total) / (2 total)⌋`. -/
def roundPct (i total : Nat) : Nat := (200 * i + total) / (2 * total)

/-- JavaScript `s.split('/')` on the character list: always returns at
least one (possibly empty) segment. -/
def splitSlash : List Char → List (List Char)
  | [] => [[]]
  | c :: rest =>
    let r := splitSlash rest
    if c = '/' then [] :: r
    else
      match r with
      | [] => [[c]]
      | h :: t => (c :: h) :: t

/-- The destination-path computation of the per-file loop:
`jobData.preserveStructure ? fileName : fileName.split('/').pop()`.
`pop()` on an empty array would be `undefined`, modelled by `none`. -/
def destPath (preserveStructure : Bool) (fileName : String) : Option String :=
  if preserveStructure then some fileName
  else ((splitSlash fileName.toList).map List.asString).getLast?

/-- A thrown JavaScript error as the validator's catch block inspects it:
an optional HTTP `status` field and a `message`. -/
structure JsError where
  status : Option Nat
  message : String
deriving Repr, DecidableEq

/-- One attempt of the regex `/github\.com\/([^\/]+)\/([^\/]+)/` anchored at
the head of `s`: the literal `github.com/`, then a maximal nonempty run of
non-slash characters (owner), a slash, and a second maximal nonempty run
(repo). -/
def tryHere (s : List Char) : Option (List Char × List Char) :=
  if s.take 11 = "github.com/".toList then
    let after := s.drop 11
    let owner := after.takeWhile (fun c => c ≠ '/')
    if owner.isEmpty then none
    else
      match after.drop owner.length with
      | '/' :: r2 =>
        let repo := r2.takeWhile (fun c => c ≠ '/')
        if repo.isEmpty then none else some (owner, repo)
      | _ => none
  else none

/-- `repoUrl.match(/github\.com\/([^\/]+)\/([^\/]+)/)`: the regex engine
tries each start position left to right and returns the first full
match. -/
def searchMatch : List Char → Option (List Char × List Char)
  | [] => none
  | c :: rest =>
    match tryHere (c :: rest) with
    | some r => some r
    | none => searchMatch rest

/-- JavaScript `s.replace(pat, '')` with a string pattern: removes the
FIRST occurrence of `pat` (if any) and leaves the rest unchanged. -/
def replaceFirst (s pat : List Char) : List Char :=
  match s with
  | [] => []
  | c :: rest =>
    if pat.isPrefixOf (c :: rest) then (c :: rest).drop pat.length
    else c :: replaceFirst rest pat

/-- The body of `validateGitHubAccess`'s `try` block: parse the URL
(throwing `URL de dépôt GitHub invalide` — a plain `Error`, no `status` —
when the regex does not match), then call `repos.get` with the repo name
after `repo.replace('.git', '')`; the oracle `remote token owner repo`
returns `none` on success and the thrown error otherwise.  On success the
function returns the owner and the same stripped repo name. -/
def validateBody (token repoUrl : String)
    (remote : String → String → String → Option JsError) :
    Except JsError (String × String) :=
  match searchMatch repoUrl.toList with
  | none => .error ⟨none, "URL de dépôt GitHub invalide"⟩
  | some (owner, repo) =>
    let repo2 := (replaceFirst repo ".git".toList).asString
    match remote token owner.asString repo2 with
    | some e => .error e
    | none => .ok (owner.asString, repo2)

/-- `validateGitHubAccess`: run the body; the catch block maps any thrown
error — including the internal invalid-URL error — by status: 401 and 404
get fixed messages, everything else is wrapped as
`Erreur GitHub: <message>`. -/
def validateGitHubAccess (token repoUrl : String)
    (remote : String → String → String → Option JsError) :
    Except String (String × String) :=
  match validateBody token repoUrl remote with
  | .ok r => .ok r
  | .error e =>
    if e.status = some 401 then .error "Token GitHub invalide ou expiré"
    else if e.status = some 404 then .error "Dépôt non trouvé ou pas d\x27accès"
    else .error ("Erreur GitHub: " ++ e.message)

/-- Outcome of `octokit.rest.repos.getContent` as `uploadFileToGitHub`
inspects it: a record containing a `sha` field, a response without one
(e.g. a directory listing), or a thrown error with an optional status. -/
inductive GetContentResult where
  | found (sha : String)
  | foundNoSha
  | errStatus (status : Option Nat) (message : String)
deriving Repr, DecidableEq

/-- Observable behaviour of one `uploadFileToGitHub` call: how many
existence lookups (`getContent`) ran, the `sha` argument of each
`createOrUpdateFileContents` write that was attempted (the spread
`...(sha && { sha })` omits the field when `sha` is `undefined` OR the
empty string), and the call's overall result. -/
structure UploadCalls where
  lookups : Nat
  writes : List (Option String)
  result : Except String Unit
deriving Repr

/-- `uploadFileToGitHub`: when `overwrite` is set, first look the path up
on the branch — capturing `data.sha` when present, treating a 404 as
non-fatal, and rethrowing any other lookup error; then perform the single
write, passing the captured sha via `...(sha && { sha })`.  Any error is
wrapped as `Erreur lors de l'upload de <path>: <message>`. -/
def uploadFileToGitHub (path : String) (overwrite : Bool)
    (getContentResult : GetContentResult) (writeResult : Option JsError) :
    UploadCalls :=
  let lookups := if overwrite then 1 else 0
  let shaStep : Except JsError (Option String) :=
    if overwrite then
      match getContentResult with
      | .found s => .ok (some s)
      | .foundNoSha => .ok none
      | .errStatus st m => if st = some 404 then .ok none else .error ⟨st, m⟩
    else .ok none
  match shaStep with
  | .error e =>
    ⟨lookups, [], .error ("Erreur lors de l\x27upload de " ++ path ++ ": " ++ e.message)⟩
  | .ok sha =>
    let shaArg : Option String :=
      match sha with
      | some s => if s = "" then none else some s
      | none => none
    match writeResult with
    | none => ⟨lookups, [shaArg], .ok ()⟩
    | some e =>
      ⟨lookups, [shaArg], .error ("Erreur lors de l\x27upload de " ++ path ++ ": " ++ e.message)⟩

/-- One entry of the decoded archive: its relative path and the directory
flag (`zipContent.files[name].dir`). -/
structure ZipEntry where
  name : String
  dir : Bool
deriving Repr, DecidableEq

/-- The log entry appended by the per-file loop's inner try/catch: an
info entry naming the file on success, an error entry naming the file and
the wrapped message on failure. -/
def loopLog (f : String) (res : Except String Unit) (t1 : String) : LogEntry :=
  match res with
  | .ok _ => ⟨t1, "info", "Fichier uploadé: " ++ f⟩
  | .error m => ⟨t1, "error", "Erreur pour " ++ f ++ ": " ++ m⟩

/-- One iteration of the per-file loop (lines 303–350) on file `f` at
zero-based index `i`: first store `currentFile`, `filesProcessed = i` and
the rounded progress percentage; then run `uploadFileToGitHub` on the
resolved destination path with the job's overwrite flag (oracles `gc`/`wr`
give the call's lookup and write outcomes); then read the job back and
append the success/failure log entry to its current log.  Returns the two
job states the iteration stores and the number of write attempts the
remote-writer call made. -/
def loopBody (jd : InsertUploadJob) (total : Nat) (gc : Nat → GetContentResult)
    (wr : Nat → Option JsError) (f : String) (i : Nat) (j : UploadJob) (t : Nat) :
    UploadJob × UploadJob × Nat :=
  let j1 := mergeJob j
    { JobUpdate.idU with
      currentFile := some (some f)
      filesProcessed := some i
      progress := some (roundPct i total) } (toString t)
  let call := uploadFileToGitHub ((destPath jd.preserveStructure f).getD "")
    jd.overwriteFiles (gc i) (wr i)
  let j2 := mergeJob j1
    { JobUpdate.idU with logs := some (j1.logs ++ [loopLog f call.result (toString (t + 1))]) }
    (toString (t + 1))
  (j1, j2, call.writes.length)

/-- The per-file loop: run `loopBody` on each file in archive order,
threading the job record.  Returns the trace of job states produced by the
loop (oldest first), the job record after the loop, and the total number
of remote write attempts. -/
def processFiles (jd : InsertUploadJob) (total : Nat)
    (gc : Nat → GetContentResult) (wr : Nat → Option JsError) :
    List String → Nat → UploadJob → Nat → List UploadJob × UploadJob × Nat
  | [], _, j, _ => ([], j, 0)
  | f :: rest, i, j, t =>
    let b := loopBody jd total gc wr f i j t
    let r := processFiles jd total gc wr rest (i + 1) b.2.1 (t + 2)
    (b.1 :: b.2.1 :: r.1, r.2.1, b.2.2 + r.2.2)

/-- The update of lines 268–275: status `processing` and a fresh
single-entry log (the fragment replaces the stored log wholesale). -/
def jobProcessing (job0 : UploadJob) : UploadJob :=
  mergeJob job0
    { JobUpdate.idU with
      status := some "processing"
      logs := some [⟨"1", "info", "Début de l\x27extraction du fichier ZIP"⟩] } "1"

/-- The update of lines 285–292: record the non-directory entry count with
a fresh single-entry log. -/
def jobCounted (j1 : UploadJob) (n : Nat) : UploadJob :=
  mergeJob j1
    { JobUpdate.idU with
      totalFiles := some n
      logs := some [⟨"2", "info", toString n ++ " fichiers détectés dans le ZIP"⟩] } "2"

/-- The outer catch block (lines 363–373): status `failed`, the error
message, and a fresh single-entry error log. -/
def jobFailed (j : UploadJob) (m t : String) : UploadJob :=
  mergeJob j
    { JobUpdate.idU with
      status := some "failed"
      error := some (some m)
      logs := some [⟨t, "error", "Erreur fatale: " ++ m⟩] } t

/-- The terminal update of lines 352–361: status `completed`, progress
100, `filesProcessed` set to the entry count, and a fresh single-entry
log. -/
def jobCompleted (j : UploadJob) (n : Nat) (tEnd : String) : UploadJob :=
  mergeJob j
    { JobUpdate.idU with
      status := some "completed"
      progress := some 100
      filesProcessed := some n
      logs := some [⟨tEnd, "info", "Upload terminé avec succès"⟩] } tEnd

/-- `processZipUpload`, driven from the freshly created job record `job0`:
1. store status `processing` (`jobProcessing`);
2. decode the archive (`zipResult` oracle); a decoding error is caught by
   the outer catch (`jobFailed`);
3. store the non-directory entry count (`jobCounted`);
4. run `validateGitHubAccess` on the job's token and URL; a failure is
   caught by the same outer catch (`jobFailed`);
5. run the per-file loop (whose inner catch lets nothing escape);
6. store the terminal record (`jobCompleted`).
Returns every observable state of the job record (the created record, then
the record after each registry update, oldest first) together with the
total number of remote write attempts. -/
def processZipUpload (job0 : UploadJob) (jd : InsertUploadJob)
    (zipResult : Except String (List ZipEntry))
    (remote : String → String → String → Option JsError)
    (gc : Nat → GetContentResult) (wr : Nat → Option JsError) :
    List UploadJob × Nat :=
  let j1 := jobProcessing job0
  match zipResult with
  | .error m => ([job0, j1, jobFailed j1 m "2"], 0)
  | .ok entries =>
    let files := (entries.filter (fun e => !e.dir)).map ZipEntry.name
    let j2 := jobCounted j1 files.length
    match validateGitHubAccess jd.githubToken jd.repositoryUrl remote with
    | .error m => ([job0, j1, j2, jobFailed j2 m "3"], 0)
    | .ok _ownerRepo =>
      let r := processFiles jd files.length gc wr files 0 j2 3
      let jT := jobCompleted r.2.1 files.length (toString (3 + 2 * files.length))
      ([job0, j1, j2] ++ r.1 ++ [jT], r.2.2)

@[simp] theorem mergeJob_id (job : UploadJob) (u : JobUpdate) (now : String) :
    (mergeJob job u now).id = job.id := rfl

@[simp] theorem mergeJob_githubToken (job : UploadJob) (u : JobUpdate) (now : String) :
    (mergeJob job u now).githubToken = job.githubToken := rfl

@[simp] theorem mergeJob_repositoryUrl (job : UploadJob) (u : JobUpdate) (now : String) :
    (mergeJob job u now).repositoryUrl = job.repositoryUrl := rfl

@[simp] theorem mergeJob_targetBranch (job : UploadJob) (u : JobUpdate) (now : String) :
    (mergeJob job u now).targetBranch = job.targetBranch := rfl

@[simp] theorem mergeJob_commitMessage (job : UploadJob) (u : JobUpdate) (now : String) :
    (mergeJob job u now).commitMessage = job.commitMessage := rfl

@[simp] theorem mergeJob_preserveStructure (job : UploadJob) (u : JobUpdate) (now : String) :
    (mergeJob job u now).preserveStructure = job.preserveStructure := rfl

@[simp] theorem mergeJob_overwriteFiles (job : UploadJob) (u : JobUpdate) (now : String) :
    (mergeJob job u now).overwriteFiles = job.overwriteFiles := rfl

@[simp] theorem mergeJob_status (job : UploadJob) (u : JobUpdate) (now : String) :
    (mergeJob job u now).status = u.status.getD job.status := rfl

@[simp] theorem mergeJob_progress (job : UploadJob) (u : JobUpdate) (now : String) :
    (mergeJob job u now).progress = u.progress.getD job.progress := rfl

@[simp] theorem mergeJob_currentFile (job : UploadJob) (u : JobUpdate) (now : String) :
    (mergeJob job u now).currentFile = u.currentFile.getD job.currentFile := rfl

@[simp] theorem mergeJob_filesProcessed (job : UploadJob) (u : JobUpdate) (now : String) :
    (mergeJob job u now).filesProcessed = u.filesProcessed.getD job.filesProcessed := rfl

@[simp] theorem mergeJob_totalFiles (job : UploadJob) (u : JobUpdate) (now : String) :
    (mergeJob job u now).totalFiles = u.totalFiles.getD job.totalFiles := rfl

@[simp] theorem mergeJob_logs (job : UploadJob) (u : JobUpdate) (now : String) :
    (mergeJob job u now).logs = u.logs.getD job.logs := rfl

@[simp] theorem mergeJob_error (job : UploadJob) (u : JobUpdate) (now : String) :
    (mergeJob job u now).error = u.error.getD job.error := rfl

@[simp] theorem mergeJob_createdAt (job : UploadJob) (u : JobUpdate) (now : String) :
    (mergeJob job u now).createdAt = job.createdAt := rfl

@[simp] theorem mergeJob_updatedAt (job : UploadJob) (u : JobUpdate) (now : String) :
    (mergeJob job u now).updatedAt = now := rfl

theorem splitSlash_ne_nil (cs : List Char) : splitSlash cs ≠ [] := by
  induction cs with
  | nil => simp [splitSlash]
  | cons c rest ih =>
    simp only [splitSlash]
    by_cases hc : c = '/'
    · simp [hc]
    · simp only [hc, if_false]
      cases h : splitSlash rest with
      | nil => exact absurd h ih
      | cons hd tl => simp

/-- C10. Safety of the destination-path computation
(`jobData.preserveStructure ? fileName : fileName.split('/').pop()` with
the trailing non-null assertion `path!`): for every entry name — even the
empty string — `split('/')` yields at least one segment, so `pop()` is
always defined and the computation never produces `undefined`, regardless
of the preserve-structure flag. -/
theorem destPath_total (preserveStructure : Bool) (fileName : String) :
    1 ≤ (splitSlash fileName.toList).length ∧ (destPath preserveStructure fileName).isSome = true := by
  constructor
  · have h := splitSlash_ne_nil fileName.toList
    cases hs : splitSlash fileName.toList with
    | nil => exact absurd hs h
    | cons a l => simp
  · unfold destPath
    by_cases hp : preserveStructure = true
    · simp [hp]
    · have hp' : preserveStructure = false := by
        cases preserveStructure
        · rfl
        · exact absurd rfl hp
      have h := splitSlash_ne_nil fileName.toList
      cases hs : splitSlash fileName.toList with
      | nil => exact absurd hs h
      | cons a l =>
        simp [hp', hs, List.getLast?_isSome]

/-- C9. Frame property of the registry's partial update: when the
identifier is unknown the operation returns absence and the map is left
untouched; when it is known, the returned and stored record is the merge
of the old record with the fragment — every field absent from the fragment
(and every field a fragment cannot name: id, credentials, URL, branch,
message template, flags, `createdAt`) keeps its prior value, `updatedAt`
is restamped, the record is stored under the same key, and every other
key of the registry is unchanged. -/
theorem updateUploadJob_frame (s : Store) (id : String) (u : JobUpdate) (now : String) :
    (s id = none → updateUploadJob s id u now = (none, s))
    ∧ (∀ job : UploadJob, s id = some job →
        (updateUploadJob s id u now).1 = some (mergeJob job u now)
        ∧ (updateUploadJob s id u now).2 id = some (mergeJob job u now)
        ∧ (∀ k : String, k ≠ id → (updateUploadJob s id u now).2 k = s k)
        ∧ (mergeJob job u now).id = job.id
        ∧ (mergeJob job u now).githubToken = job.githubToken
        ∧ (mergeJob job u now).repositoryUrl = job.repositoryUrl
        ∧ (mergeJob job u now).targetBranch = job.targetBranch
        ∧ (mergeJob job u now).commitMessage = job.commitMessage
        ∧ (mergeJob job u now).preserveStructure = job.preserveStructure
        ∧ (mergeJob job u now).overwriteFiles = job.overwriteFiles
        ∧ (mergeJob job u now).createdAt = job.createdAt
        ∧ (u.status = none → (mergeJob job u now).status = job.status)
        ∧ (u.progress = none → (mergeJob job u now).progress = job.progress)
        ∧ (u.currentFile = none → (mergeJob job u now).currentFile = job.currentFile)
        ∧ (u.filesProcessed = none → (mergeJob job u now).filesProcessed = job.filesProcessed)
        ∧ (u.totalFiles = none → (mergeJob job u now).totalFiles = job.totalFiles)
        ∧ (u.logs = none → (mergeJob job u now).logs = job.logs)
        ∧ (u.error = none → (mergeJob job u now).error = job.error)
        ∧ (mergeJob job u now).updatedAt = now) := by
  constructor
  · intro h
    simp [updateUploadJob, h]
  · intro job h
    refine ⟨?_, ?_, ?_, rfl, rfl, rfl, rfl, rfl, rfl, rfl, rfl, ?_, ?_, ?_, ?_, ?_, ?_, ?_, rfl⟩
    · simp [updateUploadJob, h]
    · simp [updateUploadJob, h]
    · intro k hk
      simp [updateUploadJob, h, hk]
    · intro hu; simp [hu]
    · intro hu; simp [hu]
    · intro hu; simp [hu]
    · intro hu; simp [hu]
    · intro hu; simp [hu]
    · intro hu; simp [hu]
    · intro hu; simp [hu]

/-- C6. The remote writer's overwrite contract: with the overwrite flag
set, a path that exists on the branch (lookup finds a nonempty `sha`)
causes exactly one existence lookup followed by exactly one write carrying
that sha; a path that does not exist (lookup throws 404) causes exactly
one lookup, does not fail the invocation (with a successful write the call
succeeds), and the single write carries no sha; with the flag unset there
is no lookup at all before the single write. -/
theorem uploadFileToGitHub_overwrite_contract (path sha notFoundMsg : String)
    (writeResult : Option JsError) (getAny : GetContentResult) :
    (sha ≠ "" →
      (uploadFileToGitHub path true (.found sha) writeResult).lookups = 1
      ∧ (uploadFileToGitHub path true (.found sha) writeResult).writes = [some sha])
    ∧ (uploadFileToGitHub path true (.errStatus (some 404) notFoundMsg) writeResult).lookups = 1
    ∧ (uploadFileToGitHub path true (.errStatus (some 404) notFoundMsg) writeResult).writes = [none]
    ∧ (uploadFileToGitHub path true (.errStatus (some 404) notFoundMsg) none).result = .ok ()
    ∧ (uploadFileToGitHub path false getAny writeResult).lookups = 0
    ∧ (uploadFileToGitHub path false getAny writeResult).writes = [none] := by
  refine ⟨?_, ?_, ?_, ?_, ?_, ?_⟩
  · intro hs
    constructor
    · cases writeResult <;> simp [uploadFileToGitHub]
    · cases writeResult <;> simp [uploadFileToGitHub, hs]
  · cases writeResult <;> simp [uploadFileToGitHub]
  · cases writeResult <;> simp [uploadFileToGitHub]
  · simp [uploadFileToGitHub]
  · cases writeResult <;> simp [uploadFileToGitHub]
  · cases writeResult <;> simp [uploadFileToGitHub]

/-- Witness for C9 at a concrete registry: a one-job map updated under its
key and probed at an unknown key. -/
theorem updateUploadJob_frame_witness :
    (updateUploadJob
        (fun k => if k = "J" then some (createUploadJob "J" ⟨"t", "u", "main", none, true, false⟩ "0") else none)
        "K" JobUpdate.idU "9"
      = (none, fun k => if k = "J" then some (createUploadJob "J" ⟨"t", "u", "main", none, true, false⟩ "0") else none))
    ∧ ((updateUploadJob
        (fun k => if k = "J" then some (createUploadJob "J" ⟨"t", "u", "main", none, true, false⟩ "0") else none)
        "J" JobUpdate.idU "9").2 "K"
      = (fun k => if k = "J" then some (createUploadJob "J" ⟨"t", "u", "main", none, true, false⟩ "0") else none) "K") := by
  constructor
  · exact (updateUploadJob_frame
      (fun k => if k = "J" then some (createUploadJob "J" ⟨"t", "u", "main", none, true, false⟩ "0") else none)
      "K" JobUpdate.idU "9").1 (by decide)
  · exact (((updateUploadJob_frame
      (fun k => if k = "J" then some (createUploadJob "J" ⟨"t", "u", "main", none, true, false⟩ "0") else none)
      "J" JobUpdate.idU "9").2
      (createUploadJob "J" ⟨"t", "u", "main", none, true, false⟩ "0") (by decide)).2.2.1 "K" (by decide))

/-- Witness for C6 at concrete arguments (sha `a`, path `p`). -/
theorem uploadFileToGitHub_overwrite_contract_witness :
    ((uploadFileToGitHub "p" true (.found "a") none).lookups = 1
      ∧ (uploadFileToGitHub "p" true (.found "a") none).writes = [some "a"])
    ∧ (uploadFileToGitHub "p" true (.errStatus (some 404) "nf") none).lookups = 1
    ∧ (uploadFileToGitHub "p" false .foundNoSha none).lookups = 0 := by
  refine ⟨?_, ?_, ?_⟩
  · exact (uploadFileToGitHub_overwrite_contract "p" "a" "nf" none .foundNoSha).1 (by decide)
  · exact (uploadFileToGitHub_overwrite_contract "p" "a" "nf" none .foundNoSha).2.1
  · exact (uploadFileToGitHub_overwrite_contract "p" "a" "nf" none .foundNoSha).2.2.2.2.1

/-- C5 counterexample. The invalid-URL error is thrown inside the `try`
block, so the validator's own catch re-wraps it: a URL that does not match
the owner/repo shape yields `Erreur GitHub: URL de dépôt GitHub invalide`,
not the bare `InvalidReference` message — and that outcome is literally
identical to the one produced by a generic remote failure whose underlying
message is the invalid-reference text, so the four outcomes are not
pairwise distinguishable. -/
theorem invalid_url_message_wrapped :
    validateGitHubAccess "t" "example.org/no-match" (fun _ _ _ => none)
      = .error ("Erreur GitHub: " ++ "URL de dépôt GitHub invalide")
    ∧ ("Erreur GitHub: " ++ "URL de dépôt GitHub invalide") ≠ "URL de dépôt GitHub invalide"
    ∧ validateGitHubAccess "t" "https://github.com/me/repo"
        (fun _ _ _ => some ⟨some 500, "URL de dépôt GitHub invalide"⟩)
      = .error ("Erreur GitHub: " ++ "URL de dépôt GitHub invalide") := by
  exact ⟨rfl, by decide, rfl⟩

/-- C5 (amended). The validator's four failure conditions map to: a URL
not matching the owner/repo shape → the invalid-reference text wrapped by
the generic catch (`Erreur GitHub: URL de dépôt GitHub invalide`); a 401
from the remote → the invalid-credential message; a 404 → the
no-access message; any other remote failure → `Erreur GitHub: ` plus the
underlying message.  The 401 and 404 messages are distinct from each other
and from every wrapped message; the invalid-URL outcome however coincides
with a wrapped remote failure carrying the invalid-reference text. -/
theorem validator_error_message_mapping (token url : String)
    (remote : String → String → String → Option JsError) :
    (searchMatch url.toList = none →
      validateGitHubAccess token url remote
        = .error ("Erreur GitHub: " ++ "URL de dépôt GitHub invalide"))
    ∧ (∀ o r m, searchMatch url.toList = some (o, r) →
        remote token o.asString ((replaceFirst r ".git".toList).asString) = some ⟨some 401, m⟩ →
        validateGitHubAccess token url remote = .error "Token GitHub invalide ou expiré")
    ∧ (∀ o r m, searchMatch url.toList = some (o, r) →
        remote token o.asString ((replaceFirst r ".git".toList).asString) = some ⟨some 404, m⟩ →
        validateGitHubAccess token url remote = .error "Dépôt non trouvé ou pas d\x27accès")
    ∧ (∀ o r st m, searchMatch url.toList = some (o, r) →
        remote token o.asString ((replaceFirst r ".git".toList).asString) = some ⟨st, m⟩ →
        st ≠ some 401 → st ≠ some 404 →
        validateGitHubAccess token url remote = .error ("Erreur GitHub: " ++ m))
    ∧ "Token GitHub invalide ou expiré" ≠ "Dépôt non trouvé ou pas d\x27accès"
    ∧ (∀ m, "Token GitHub invalide ou expiré" ≠ "Erreur GitHub: " ++ m)
    ∧ (∀ m, "Dépôt non trouvé ou pas d\x27accès" ≠ "Erreur GitHub: " ++ m) := by
  refine ⟨?_, ?_, ?_, ?_, by decide, ?_, ?_⟩
  · intro h
    have h' : searchMatch url.data = none := h
    simp [validateGitHubAccess, validateBody, h']
  · intro o r m hm hr
    have hm' : searchMatch url.data = some (o, r) := hm
    have hr' : remote token o.asString (replaceFirst r ['.', 'g', 'i', 't']).asString
        = some ⟨some 401, m⟩ := hr
    simp [validateGitHubAccess, validateBody, hm', hr']
  · intro o r m hm hr
    have hm' : searchMatch url.data = some (o, r) := hm
    have hr' : remote token o.asString (replaceFirst r ['.', 'g', 'i', 't']).asString
        = some ⟨some 404, m⟩ := hr
    simp [validateGitHubAccess, validateBody, hm', hr']
  · intro o r st m hm hr h1 h4
    have hm' : searchMatch url.data = some (o, r) := hm
    have hr' : remote token o.asString (replaceFirst r ['.', 'g', 'i', 't']).asString
        = some ⟨st, m⟩ := hr
    simp [validateGitHubAccess, validateBody, hm', hr', h1, h4]
  · intro m h
    have h2 := congrArg (fun s : String => s.data.head?) h
    simp only [String.data_append] at h2
    rw [show (("Erreur GitHub: ".data) ++ m.data).head? = some 'E' from rfl] at h2
    exact absurd h2 (by decide)
  · intro m h
    have h2 := congrArg (fun s : String => s.data.head?) h
    simp only [String.data_append] at h2
    rw [show (("Erreur GitHub: ".data) ++ m.data).head? = some 'E' from rfl] at h2
    exact absurd h2 (by decide)

/-- Witness for the amended C5 at concrete inputs: a non-matching URL, and
a matching URL under 401, 404 and generic remote failures. -/
theorem validator_error_message_mapping_witness :
    validateGitHubAccess "t" "x" (fun _ _ _ => none)
      = .error ("Erreur GitHub: " ++ "URL de dépôt GitHub invalide")
    ∧ validateGitHubAccess "t" "github.com/a/b" (fun _ _ _ => some ⟨some 401, "u"⟩)
      = .error "Token GitHub invalide ou expiré"
    ∧ validateGitHubAccess "t" "github.com/a/b" (fun _ _ _ => some ⟨some 404, "u"⟩)
      = .error "Dépôt non trouvé ou pas d\x27accès"
    ∧ validateGitHubAccess "t" "github.com/a/b" (fun _ _ _ => some ⟨some 500, "boom"⟩)
      = .error ("Erreur GitHub: " ++ "boom") := by
  refine ⟨?_, ?_, ?_, ?_⟩
  · exact (validator_error_message_mapping "t" "x" (fun _ _ _ => none)).1 (by decide)
  · exact (validator_error_message_mapping "t" "github.com/a/b"
      (fun _ _ _ => some ⟨some 401, "u"⟩)).2.1 "a".toList "b".toList "u" (by decide) rfl
  · exact (validator_error_message_mapping "t" "github.com/a/b"
      (fun _ _ _ => some ⟨some 404, "u"⟩)).2.2.1 "a".toList "b".toList "u" (by decide) rfl
  · exact (validator_error_message_mapping "t" "github.com/a/b"
      (fun _ _ _ => some ⟨some 500, "boom"⟩)).2.2.2.1 "a".toList "b".toList (some 500) "boom"
      (by decide) rfl (by decide) (by decide)

/-- C7. `repo.replace('.git', '')` removes the FIRST occurrence of `.git`
anywhere in the repository segment, not only a trailing suffix: the
GitHub-Pages-style repository `me.github.io` (no trailing `.git`) is
mangled to `mehub.io`, and `x.gitr.git` loses its interior `.git` while
keeping the trailing one.  A plain `.../repo.git` URL is handled as the
spec intends. -/
theorem dot_git_replace_strips_interior :
    validateGitHubAccess "t" "https://github.com/me/me.github.io" (fun _ _ _ => none)
      = .ok ("me", "mehub.io")
    ∧ validateGitHubAccess "t" "https://github.com/me/x.gitr.git" (fun _ _ _ => none)
      = .ok ("me", "xr.git")
    ∧ validateGitHubAccess "t" "https://github.com/me/repo.git" (fun _ _ _ => none)
      = .ok ("me", "repo") := by
  exact ⟨rfl, rfl, rfl⟩

theorem jobProcessing_fields (j : UploadJob) :
    (jobProcessing j).status = "processing"
    ∧ (jobProcessing j).progress = j.progress
    ∧ (jobProcessing j).filesProcessed = j.filesProcessed
    ∧ (jobProcessing j).totalFiles = j.totalFiles
    ∧ (jobProcessing j).error = j.error := by
  simp [jobProcessing, JobUpdate.idU]

theorem jobCounted_fields (j : UploadJob) (n : Nat) :
    (jobCounted j n).status = j.status
    ∧ (jobCounted j n).progress = j.progress
    ∧ (jobCounted j n).filesProcessed = j.filesProcessed
    ∧ (jobCounted j n).totalFiles = n
    ∧ (jobCounted j n).error = j.error := by
  simp [jobCounted, JobUpdate.idU]

theorem jobFailed_fields (j : UploadJob) (m t : String) :
    (jobFailed j m t).status = "failed"
    ∧ (jobFailed j m t).progress = j.progress
    ∧ (jobFailed j m t).filesProcessed = j.filesProcessed
    ∧ (jobFailed j m t).totalFiles = j.totalFiles
    ∧ (jobFailed j m t).error = some m := by
  simp [jobFailed, JobUpdate.idU]

theorem jobCompleted_fields (j : UploadJob) (n : Nat) (tEnd : String) :
    (jobCompleted j n tEnd).status = "completed"
    ∧ (jobCompleted j n tEnd).progress = 100
    ∧ (jobCompleted j n tEnd).filesProcessed = n
    ∧ (jobCompleted j n tEnd).totalFiles = j.totalFiles := by
  simp [jobCompleted, JobUpdate.idU]

theorem loopBody_fields (jd : InsertUploadJob) (total : Nat) (gc : Nat → GetContentResult)
    (wr : Nat → Option JsError) (f : String) (i : Nat) (j : UploadJob) (t : Nat) :
    (loopBody jd total gc wr f i j t).1.status = j.status
    ∧ (loopBody jd total gc wr f i j t).1.totalFiles = j.totalFiles
    ∧ (loopBody jd total gc wr f i j t).1.filesProcessed = i
    ∧ (loopBody jd total gc wr f i j t).1.progress = roundPct i total
    ∧ (loopBody jd total gc wr f i j t).2.1.status = j.status
    ∧ (loopBody jd total gc wr f i j t).2.1.totalFiles = j.totalFiles
    ∧ (loopBody jd total gc wr f i j t).2.1.filesProcessed = i
    ∧ (loopBody jd total gc wr f i j t).2.1.progress = roundPct i total := by
  simp [loopBody, JobUpdate.idU]

theorem processFiles_inv (jd : InsertUploadJob) (total : Nat)
    (gc : Nat → GetContentResult) (wr : Nat → Option JsError) :
    ∀ (fs : List String) (i : Nat) (j : UploadJob) (t : Nat),
      i + fs.length = total → j.totalFiles = total →
      (∀ x ∈ (processFiles jd total gc wr fs i j t).1,
          x.status = j.status ∧ x.totalFiles = total ∧ x.filesProcessed < total)
      ∧ (processFiles jd total gc wr fs i j t).2.1.status = j.status
      ∧ (processFiles jd total gc wr fs i j t).2.1.totalFiles = total := by
  intro fs
  induction fs with
  | nil =>
    intro i j t hi ht
    exact ⟨by intro x hx; simp [processFiles] at hx, rfl, ht⟩
  | cons f rest ih =>
    intro i j t hi ht
    simp only [List.length_cons] at hi
    have hitot : i < total := by omega
    obtain ⟨hb1s, hb1t, hb1f, hb1p, hb2s, hb2t, hb2f, hb2p⟩ :=
      loopBody_fields jd total gc wr f i j t
    have hrec := ih (i + 1) (loopBody jd total gc wr f i j t).2.1 (t + 2)
      (by omega) (by rw [hb2t, ht])
    obtain ⟨hmem, hfs, hft⟩ := hrec
    refine ⟨?_, ?_, ?_⟩
    · intro x hx
      simp only [processFiles, List.mem_cons] at hx
      rcases hx with rfl | rfl | hx
      · exact ⟨hb1s, by rw [hb1t, ht], by rw [hb1f]; exact hitot⟩
      · exact ⟨hb2s, by rw [hb2t, ht], by rw [hb2f]; exact hitot⟩
      · obtain ⟨h1, h2, h3⟩ := hmem x hx
        exact ⟨by rw [h1, hb2s], h2, h3⟩
    · show (processFiles jd total gc wr (f :: rest) i j t).2.1.status = j.status
      simp only [processFiles]
      rw [hfs, hb2s]
    · show (processFiles jd total gc wr (f :: rest) i j t).2.1.totalFiles = total
      simp only [processFiles]
      exact hft

/-- C8. At job creation both counters are zero, and at every observable
state of the job record — creation, the processing/count updates, every
per-entry update, the failure updates and the terminal update —
`filesProcessed ≤ totalFiles` holds. -/
theorem filesProcessed_le_totalFiles_every_state (id : String) (jd : InsertUploadJob)
    (now : String) (zipResult : Except String (List ZipEntry))
    (remote : String → String → String → Option JsError)
    (gc : Nat → GetContentResult) (wr : Nat → Option JsError) :
    (createUploadJob id jd now).filesProcessed = 0
    ∧ (createUploadJob id jd now).totalFiles = 0
    ∧ ∀ x ∈ (processZipUpload (createUploadJob id jd now) jd zipResult remote gc wr).1,
        x.filesProcessed ≤ x.totalFiles := by
  refine ⟨rfl, rfl, ?_⟩
  intro x hx
  cases zipResult with
  | error m =>
    simp only [processZipUpload, List.mem_cons, List.not_mem_nil, or_false] at hx
    rcases hx with rfl | rfl | rfl
    · exact Nat.le_refl 0
    · have hp := jobProcessing_fields (createUploadJob id jd now)
      rw [hp.2.2.1, hp.2.2.2.1]
      exact Nat.le_refl 0
    · have hf := jobFailed_fields (jobProcessing (createUploadJob id jd now)) m "2"
      have hp := jobProcessing_fields (createUploadJob id jd now)
      rw [hf.2.2.1, hf.2.2.2.1, hp.2.2.1, hp.2.2.2.1]
      exact Nat.le_refl 0
  | ok entries =>
    cases hv : validateGitHubAccess jd.githubToken jd.repositoryUrl remote with
    | error m =>
      simp only [processZipUpload, hv, List.mem_cons, List.not_mem_nil, or_false] at hx
      rcases hx with rfl | rfl | rfl | rfl
      · exact Nat.le_refl 0
      · have hp := jobProcessing_fields (createUploadJob id jd now)
        rw [hp.2.2.1, hp.2.2.2.1]
        exact Nat.le_refl 0
      · have hc := jobCounted_fields (jobProcessing (createUploadJob id jd now))
          (((entries.filter (fun e => !e.dir)).map ZipEntry.name).length)
        have hp := jobProcessing_fields (createUploadJob id jd now)
        rw [hc.2.2.1, hc.2.2.2.1, hp.2.2.1]
        exact Nat.zero_le _
      · have hf := jobFailed_fields
          (jobCounted (jobProcessing (createUploadJob id jd now))
            (((entries.filter (fun e => !e.dir)).map ZipEntry.name).length)) m "3"
        have hc := jobCounted_fields (jobProcessing (createUploadJob id jd now))
          (((entries.filter (fun e => !e.dir)).map ZipEntry.name).length)
        have hp := jobProcessing_fields (createUploadJob id jd now)
        rw [hf.2.2.1, hf.2.2.2.1, hc.2.2.1, hc.2.2.2.1, hp.2.2.1]
        exact Nat.zero_le _
    | ok pr =>
      simp only [processZipUpload, hv, List.mem_append, List.mem_cons,
        List.not_mem_nil, or_false] at hx
      have hinv := processFiles_inv jd
        (((entries.filter (fun e => !e.dir)).map ZipEntry.name).length) gc wr
        ((entries.filter (fun e => !e.dir)).map ZipEntry.name) 0
        (jobCounted (jobProcessing (createUploadJob id jd now))
          (((entries.filter (fun e => !e.dir)).map ZipEntry.name).length)) 3
        (by simp) ((jobCounted_fields _ _).2.2.2.1)
      rcases hx with ((rfl | rfl | rfl) | hmemx) | rfl
      · exact Nat.le_refl 0
      · have hp := jobProcessing_fields (createUploadJob id jd now)
        rw [hp.2.2.1, hp.2.2.2.1]
        exact Nat.le_refl 0
      · have hc := jobCounted_fields (jobProcessing (createUploadJob id jd now))
          (((entries.filter (fun e => !e.dir)).map ZipEntry.name).length)
        have hp := jobProcessing_fields (createUploadJob id jd now)
        rw [hc.2.2.1, hc.2.2.2.1, hp.2.2.1]
        exact Nat.zero_le _
      · obtain ⟨_, h2, h3⟩ := hinv.1 x hmemx
        rw [h2]
        exact Nat.le_of_lt h3
      · have hT := jobCompleted_fields
          (processFiles jd (((entries.filter (fun e => !e.dir)).map ZipEntry.name).length) gc wr
            ((entries.filter (fun e => !e.dir)).map ZipEntry.name) 0
            (jobCounted (jobProcessing (createUploadJob id jd now))
              (((entries.filter (fun e => !e.dir)).map ZipEntry.name).length)) 3).2.1
          (((entries.filter (fun e => !e.dir)).map ZipEntry.name).length)
          (toString (3 + 2 * ((entries.filter (fun e => !e.dir)).map ZipEntry.name).length))
        rw [hT.2.2.1, hT.2.2.2, hinv.2.2]

/-- C2 (amended). At every observable state of the job record,
`status == "completed"` holds exactly when `progress == 100` AND
`filesProcessed == totalFiles` hold together.  (The stronger reading that
`progress == 100` alone is never observed outside `completed` is false:
rounding lets the per-entry progress reach 100 while still `processing`
when the archive has at least 200 entries — see the counterexample.) -/
theorem completed_iff_progress100_and_all_processed (id : String) (jd : InsertUploadJob)
    (now : String) (zipResult : Except String (List ZipEntry))
    (remote : String → String → String → Option JsError)
    (gc : Nat → GetContentResult) (wr : Nat → Option JsError) :
    ∀ x ∈ (processZipUpload (createUploadJob id jd now) jd zipResult remote gc wr).1,
      (x.status = "completed" ↔ (x.progress = 100 ∧ x.filesProcessed = x.totalFiles)) := by
  intro x hx
  have hpr0 : (createUploadJob id jd now).progress = 0 := rfl
  have hst0 : (createUploadJob id jd now).status = "pending" := rfl
  cases zipResult with
  | error m =>
    simp only [processZipUpload, List.mem_cons, List.not_mem_nil, or_false] at hx
    rcases hx with rfl | rfl | rfl
    · refine iff_of_false ?_ ?_
      · rw [hst0]; decide
      · intro h; obtain ⟨h1, _⟩ := h
        rw [hpr0] at h1; exact absurd h1 (by decide)
    · refine iff_of_false ?_ ?_
      · rw [(jobProcessing_fields _).1]; decide
      · intro h; obtain ⟨h1, _⟩ := h
        rw [(jobProcessing_fields _).2.1, hpr0] at h1; exact absurd h1 (by decide)
    · refine iff_of_false ?_ ?_
      · rw [(jobFailed_fields _ m "2").1]; decide
      · intro h; obtain ⟨h1, _⟩ := h
        rw [(jobFailed_fields _ m "2").2.1, (jobProcessing_fields _).2.1, hpr0] at h1
        exact absurd h1 (by decide)
  | ok entries =>
    cases hv : validateGitHubAccess jd.githubToken jd.repositoryUrl remote with
    | error m =>
      simp only [processZipUpload, hv, List.mem_cons, List.not_mem_nil, or_false] at hx
      rcases hx with rfl | rfl | rfl | rfl
      · refine iff_of_false ?_ ?_
        · rw [hst0]; decide
        · intro h; obtain ⟨h1, _⟩ := h
          rw [hpr0] at h1; exact absurd h1 (by decide)
      · refine iff_of_false ?_ ?_
        · rw [(jobProcessing_fields _).1]; decide
        · intro h; obtain ⟨h1, _⟩ := h
          rw [(jobProcessing_fields _).2.1, hpr0] at h1; exact absurd h1 (by decide)
      · refine iff_of_false ?_ ?_
        · rw [(jobCounted_fields _ _).1, (jobProcessing_fields _).1]; decide
        · intro h; obtain ⟨h1, _⟩ := h
          rw [(jobCounted_fields _ _).2.1, (jobProcessing_fields _).2.1, hpr0] at h1
          exact absurd h1 (by decide)
      · refine iff_of_false ?_ ?_
        · rw [(jobFailed_fields _ m "3").1]; decide
        · intro h; obtain ⟨h1, _⟩ := h
          rw [(jobFailed_fields _ m "3").2.1, (jobCounted_fields _ _).2.1,
            (jobProcessing_fields _).2.1, hpr0] at h1
          exact absurd h1 (by decide)
    | ok pr =>
      simp only [processZipUpload, hv, List.mem_append, List.mem_cons,
        List.not_mem_nil, or_false] at hx
      have hinv := processFiles_inv jd
        (((entries.filter (fun e => !e.dir)).map ZipEntry.name).length) gc wr
        ((entries.filter (fun e => !e.dir)).map ZipEntry.name) 0
        (jobCounted (jobProcessing (createUploadJob id jd now))
          (((entries.filter (fun e => !e.dir)).map ZipEntry.name).length)) 3
        (by simp) ((jobCounted_fields _ _).2.2.2.1)
      rcases hx with ((rfl | rfl | rfl) | hmemx) | rfl
      · refine iff_of_false ?_ ?_
        · rw [hst0]; decide
        · intro h; obtain ⟨h1, _⟩ := h
          rw [hpr0] at h1; exact absurd h1 (by decide)
      · refine iff_of_false ?_ ?_
        · rw [(jobProcessing_fields _).1]; decide
        · intro h; obtain ⟨h1, _⟩ := h
          rw [(jobProcessing_fields _).2.1, hpr0] at h1; exact absurd h1 (by decide)
      · refine iff_of_false ?_ ?_
        · rw [(jobCounted_fields _ _).1, (jobProcessing_fields _).1]; decide
        · intro h; obtain ⟨h1, _⟩ := h
          rw [(jobCounted_fields _ _).2.1, (jobProcessing_fields _).2.1, hpr0] at h1
          exact absurd h1 (by decide)
      · obtain ⟨h1, h2, h3⟩ := hinv.1 x hmemx
        have hjs : (jobCounted (jobProcessing (createUploadJob id jd now))
            (((entries.filter (fun e => !e.dir)).map ZipEntry.name).length)).status
            = "processing" := by
          rw [(jobCounted_fields _ _).1, (jobProcessing_fields _).1]
        refine iff_of_false ?_ ?_
        · rw [h1, hjs]
          decide
        · intro h
          obtain ⟨_, hq⟩ := h
          rw [h2] at hq
          omega
      · have hT := jobCompleted_fields
          (processFiles jd (((entries.filter (fun e => !e.dir)).map ZipEntry.name).length) gc wr
            ((entries.filter (fun e => !e.dir)).map ZipEntry.name) 0
            (jobCounted (jobProcessing (createUploadJob id jd now))
              (((entries.filter (fun e => !e.dir)).map ZipEntry.name).length)) 3).2.1
          (((entries.filter (fun e => !e.dir)).map ZipEntry.name).length)
          (toString (3 + 2 * ((entries.filter (fun e => !e.dir)).map ZipEntry.name).length))
        refine iff_of_true hT.1 ⟨hT.2.1, ?_⟩
        rw [hT.2.2.1, hT.2.2.2, hinv.2.2]

/-- A well-formed job submission used by the concrete runs below. -/
def sampleInsert : InsertUploadJob :=
  ⟨"tok", "https://github.com/me/repo", "main", none, true, false⟩

/-- The job record the registry creates for `sampleInsert`. -/
def sampleJob : UploadJob := createUploadJob "job-1" sampleInsert "0"

/-- A remote that accepts every repository lookup. -/
def remoteOk : String → String → String → Option JsError := fun _ _ _ => none

/-- Existence lookups that find no sha (no overwrite requested anyway). -/
def gcNoSha : Nat → GetContentResult := fun _ => .foundNoSha

/-- Writes that all succeed. -/
def wrOk : Nat → Option JsError := fun _ => none

/-- A successful one-file run. -/
def runOneFile : List UploadJob × Nat :=
  processZipUpload sampleJob sampleInsert (.ok [⟨"a.txt", false⟩]) remoteOk gcNoSha wrOk

/-- A two-file run whose first remote write fails with a generic remote
error (`boom`) while the second succeeds. -/
def runTwoFilesFirstFails : List UploadJob × Nat :=
  processZipUpload sampleJob sampleInsert (.ok [⟨"a", false⟩, ⟨"b", false⟩]) remoteOk gcNoSha
    (fun i => if i = 0 then some ⟨some 500, "boom"⟩ else none)

/-- A 200-entry archive (the smallest count at which the rounded per-entry
progress reaches 100 while the last entry is still being processed). -/
def entries200 : List ZipEntry := (List.range 200).map (fun n => ⟨toString n, false⟩)

/-- A successful 200-file run. -/
def run200 : List UploadJob × Nat :=
  processZipUpload sampleJob sampleInsert (.ok entries200) remoteOk gcNoSha wrOk

/-- C1.  The log is NOT append-only: on a successful one-file run the
observed log lengths are `[1, 1, 1, 1, 2, 1]` — the per-file success entry
is appended (length 2) and then the terminal update's wholesale `logs`
replacement shrinks the log back to a single entry, so the length observed
by successive reads decreases from 2 to 1. -/
theorem terminal_update_truncates_logs :
    runOneFile.1.map (fun j => j.logs.length) = [1, 1, 1, 1, 2, 1]
    ∧ (runOneFile.1.get? 4).map (fun j => j.logs.length) = some 2
    ∧ (runOneFile.1.get? 5).map (fun j => j.logs.length) = some 1 := by
  exact ⟨by decide, by decide, by decide⟩

set_option maxRecDepth 100000 in
/-- C2 counterexample.  In a 200-entry run, while the last entry is being
processed the job record shows status `processing` with `progress = 100`
(`Math.round((199 / 200) * 100) = 100`) and `filesProcessed = 199 ≠ 200 =
totalFiles`: `progress == 100` IS observed while the job is still
`processing`. -/
theorem progress_100_observed_while_processing :
    (run200.1.get? 401).map (fun j => (j.status, j.progress, j.filesProcessed, j.totalFiles))
      = some ("processing", 100, 199, 200) := by
  decide

/-- Witness for the amended C2 at a concrete run and observable state. -/
theorem completed_iff_progress100_witness :
    (createUploadJob "job-1" sampleInsert "0").status = "completed"
      ↔ ((createUploadJob "job-1" sampleInsert "0").progress = 100
          ∧ (createUploadJob "job-1" sampleInsert "0").filesProcessed
              = (createUploadJob "job-1" sampleInsert "0").totalFiles) := by
  exact completed_iff_progress100_and_all_processed "job-1" sampleInsert "0"
    (.ok [⟨"a.txt", false⟩]) remoteOk gcNoSha wrOk
    (createUploadJob "job-1" sampleInsert "0") (by decide)

/-- C3.  A single failing entry among two: the run does end `completed`
with `filesProcessed = totalFiles = 2` and the error log entry IS appended
during the run (state 4 shows levels `[info, error]`), but the terminal
update's wholesale `logs` replacement erases it — the terminal record's
log is a single `info` entry, with no `error`-level entry left. -/
theorem single_failure_completes_but_error_log_lost :
    (runTwoFilesFirstFails.1.getLast?).map
        (fun j => (j.status, j.filesProcessed, j.totalFiles, j.logs.map LogEntry.level))
      = some ("completed", 2, 2, ["info"])
    ∧ (runTwoFilesFirstFails.1.get? 4).map (fun j => j.logs.map LogEntry.level)
      = some ["info", "error"]
    ∧ runTwoFilesFirstFails.2 = 2 := by
  exact ⟨by decide, by decide, by decide⟩

/-- C4.  Pre-flight failures abort with zero remote writes: a decoding
error ends the run as `[created, processing, failed]` with the error
recorded and write count 0; a validator failure ends it as `[created,
processing, counted, failed]`, again with write count 0 — the remote
writer is never invoked in either case. -/
theorem preflight_failure_fails_job_with_zero_writes (id : String) (jd : InsertUploadJob)
    (now : String) (remote : String → String → String → Option JsError)
    (gc : Nat → GetContentResult) (wr : Nat → Option JsError) :
    (∀ m : String,
      (processZipUpload (createUploadJob id jd now) jd (.error m) remote gc wr).2 = 0
      ∧ (processZipUpload (createUploadJob id jd now) jd (.error m) remote gc wr).1
          = [createUploadJob id jd now, jobProcessing (createUploadJob id jd now),
             jobFailed (jobProcessing (createUploadJob id jd now)) m "2"]
      ∧ (jobFailed (jobProcessing (createUploadJob id jd now)) m "2").status = "failed"
      ∧ (jobFailed (jobProcessing (createUploadJob id jd now)) m "2").error = some m)
    ∧ (∀ (entries : List ZipEntry) (m : String),
        validateGitHubAccess jd.githubToken jd.repositoryUrl remote = .error m →
        (processZipUpload (createUploadJob id jd now) jd (.ok entries) remote gc wr).2 = 0
        ∧ (processZipUpload (createUploadJob id jd now) jd (.ok entries) remote gc wr).1
            = [createUploadJob id jd now, jobProcessing (createUploadJob id jd now),
               jobCounted (jobProcessing (createUploadJob id jd now))
                 (((entries.filter (fun e => !e.dir)).map ZipEntry.name).length),
               jobFailed (jobCounted (jobProcessing (createUploadJob id jd now))
                 (((entries.filter (fun e => !e.dir)).map ZipEntry.name).length)) m "3"]
        ∧ (jobFailed (jobCounted (jobProcessing (createUploadJob id jd now))
             (((entries.filter (fun e => !e.dir)).map ZipEntry.name).length)) m "3").status
            = "failed"
        ∧ (jobFailed (jobCounted (jobProcessing (createUploadJob id jd now))
             (((entries.filter (fun e => !e.dir)).map ZipEntry.name).length)) m "3").error
            = some m) := by
  constructor
  · intro m
    exact ⟨rfl, rfl, (jobFailed_fields _ m "2").1, (jobFailed_fields _ m "2").2.2.2.2⟩
  · intro entries m hm
    refine ⟨?_, ?_, (jobFailed_fields _ m "3").1, (jobFailed_fields _ m "3").2.2.2.2⟩
    · simp [processZipUpload, hm]
    · simp [processZipUpload, hm]

/-- A submission whose repository URL cannot be parsed, for the C4
witness. -/
def badInsert : InsertUploadJob := ⟨"tok", "nope", "main", none, true, false⟩

/-- Witness for C4: a concrete corrupt-archive run and a concrete
invalid-URL run, both with zero writes and a failed terminal record. -/
theorem preflight_failure_witness :
    (processZipUpload (createUploadJob "j" badInsert "0") badInsert (.error "corrupt")
        remoteOk gcNoSha wrOk).2 = 0
    ∧ (processZipUpload (createUploadJob "j" badInsert "0") badInsert (.ok [⟨"a", false⟩])
        remoteOk gcNoSha wrOk).2 = 0 := by
  constructor
  · exact ((preflight_failure_fails_job_with_zero_writes "j" badInsert "0"
      remoteOk gcNoSha wrOk).1 "corrupt").1
  · exact ((preflight_failure_fails_job_with_zero_writes "j" badInsert "0"
      remoteOk gcNoSha wrOk).2 [⟨"a", false⟩]
      ("Erreur GitHub: " ++ "URL de dépôt GitHub invalide") rfl).1
